import Mathlib

/-!
Verification of the particle-wave renderer (`src/App.tsx`).

The development shallowly embeds the two GLSL shader programs and the
React-side interaction-state tracker:

* the vertex shader's displacement math (`elevation`, `dist`, `influence`,
  `distortion`, `displacedZ`, `pointSize`) is modelled over `ℝ`, with GLSL
  `length`/`distance` expanded to `Real.sqrt` of the sum of squares;
* the fragment shader (`fragColor`) returns `none` when the fragment is
  discarded and `some` RGBA otherwise;
* the hover-intensity smoothing and pointer bookkeeping done in `useFrame`
  and the pointer event handlers are modelled over `ℚ` (`hoverStep`,
  `hoverIter`, `FieldState`, `useFrameTick`, `runTicks`), since the update
  only uses field operations on the stored values.
-/

namespace WaveParticles

open Real

/-- GLSL `length` of a 2-vector: the Euclidean norm. -/
noncomputable def length2 (v : ℝ × ℝ) : ℝ :=
  Real.sqrt (v.1 ^ 2 + v.2 ^ 2)

/-- Base wave elevation computed by the vertex shader:
`sin(x*uFrequency + uTime*uSpeed) * uAmplitude
 + sin(y*uFrequency*0.5 + uTime*uSpeed*0.5) * uAmplitude * 0.5`. -/
noncomputable def elevation (uFrequency uAmplitude uSpeed uTime x y : ℝ) : ℝ :=
  Real.sin (x * uFrequency + uTime * uSpeed) * uAmplitude +
    Real.sin (y * uFrequency * 0.5 + uTime * uSpeed * 0.5) * uAmplitude * 0.5

/-- `interactionVec = uMouse * vec2(15.0, 10.0) - modelPosition.xy`. -/
noncomputable def interactionVec (uMouse : ℝ × ℝ) (x y : ℝ) : ℝ × ℝ :=
  (uMouse.1 * 15 - x, uMouse.2 * 10 - y)

/-- `dist = length(interactionVec)`: distance from the vertex to the scaled
mouse position. -/
noncomputable def dist (uMouse : ℝ × ℝ) (x y : ℝ) : ℝ :=
  length2 (interactionVec uMouse x y)

/-- `influence = max(0.0, 1.0 - dist / 3.0)`, the linear falloff with
interaction radius 3.0. -/
noncomputable def influence (d : ℝ) : ℝ :=
  max 0 (1 - d / 3)

/-- `distortion = sin(dist * 3.0 - uTime * 5.0) * influence * 2.0 * uHoverState`. -/
noncomputable def distortion (uTime d uHoverState : ℝ) : ℝ :=
  Real.sin (d * 3 - uTime * 5) * influence d * 2 * uHoverState

/-- The displaced z coordinate: starting from world base z = 0, the shader
executes `modelPosition.z += elevation + distortion`. -/
noncomputable def displacedZ (uFrequency uAmplitude uSpeed uTime : ℝ)
    (uMouse : ℝ × ℝ) (uHoverState x y : ℝ) : ℝ :=
  0 + (elevation uFrequency uAmplitude uSpeed uTime x y +
    distortion uTime (dist uMouse x y) uHoverState)

/-- The displaced world position of a vertex whose world base position is
`(x, y, 0)`: only the z coordinate is modified by the shader. -/
noncomputable def displacedPosition (uFrequency uAmplitude uSpeed uTime : ℝ)
    (uMouse : ℝ × ℝ) (uHoverState x y : ℝ) : ℝ × ℝ × ℝ :=
  (x, y, displacedZ uFrequency uAmplitude uSpeed uTime uMouse uHoverState x y)

/-- The divisor used in the point-size computation: `-viewPosition.z`,
exactly as written in the shader, with no epsilon clamp. -/
noncomputable def pointSizeDivisor (viewZ : ℝ) : ℝ := -viewZ

/-- `gl_PointSize = 3.0 * (15.0 / -viewPosition.z)`. -/
noncomputable def pointSize (viewZ : ℝ) : ℝ :=
  3 * (15 / pointSizeDivisor viewZ)

/-- `distance(gl_PointCoord, vec2(0.5))`: offset distance of a fragment from
the point's center in the normalized `[0,1] × [0,1]` frame. -/
noncomputable def distanceToCenter (pointCoord : ℝ × ℝ) : ℝ :=
  length2 (pointCoord.1 - 0.5, pointCoord.2 - 0.5)

/-- `float alpha = 0.8 + vElevation * 0.1;` from the fragment shader. -/
noncomputable def alpha (vElevation : ℝ) : ℝ :=
  0.8 + vElevation * 0.1

/-- The fragment shader: discards (returns `none`) when
`distanceToCenter > 0.5`, otherwise emits `vec4(uColor, alpha)`. -/
noncomputable def fragColor (uColor : ℝ × ℝ × ℝ) (vElevation : ℝ)
    (pointCoord : ℝ × ℝ) : Option (ℝ × ℝ × ℝ × ℝ) :=
  if distanceToCenter pointCoord > 0.5 then none
  else some (uColor.1, uColor.2.1, uColor.2.2, alpha vElevation)

/-- C1: the displacement stage maps a vertex with world base position
`(x, y, 0)` to `(x, y, z')` with
`z' = amplitude*sin(x*frequency + t*speed)
      + 0.5*amplitude*sin(y*frequency*0.5 + t*speed*0.5)
      + sin(d*3 - t*5) * max(0, 1 - d/3) * 2 * hoverState`,
where `d = |mouse*(15,10) - (x,y)|`; x and y are unchanged. -/
theorem displacedPosition_formula (uFrequency uAmplitude uSpeed uTime : ℝ)
    (uMouse : ℝ × ℝ) (uHoverState x y : ℝ) :
    displacedPosition uFrequency uAmplitude uSpeed uTime uMouse uHoverState x y =
      (x, y,
        uAmplitude * Real.sin (x * uFrequency + uTime * uSpeed) +
          0.5 * uAmplitude * Real.sin (y * uFrequency * 0.5 + uTime * uSpeed * 0.5) +
          Real.sin (dist uMouse x y * 3 - uTime * 5) *
            max 0 (1 - dist uMouse x y / 3) * 2 * uHoverState) := by
  unfold displacedPosition displacedZ elevation distortion influence
  refine Prod.ext rfl (Prod.ext rfl ?_)
  ring

/-- C6: at `uHoverState = 0` the ripple term is exactly 0 for every vertex,
time, and pointer position, and the displaced z equals the base-wave
elevation alone. -/
theorem distortion_gated_at_zero (uFrequency uAmplitude uSpeed uTime : ℝ)
    (uMouse : ℝ × ℝ) (x y d : ℝ) :
    distortion uTime d 0 = 0 ∧
      displacedZ uFrequency uAmplitude uSpeed uTime uMouse 0 x y =
        elevation uFrequency uAmplitude uSpeed uTime x y := by
  constructor
  · unfold distortion
    ring
  · unfold displacedZ distortion
    ring

/-- C7: for `d ≥ 0` the influence falloff equals `clamp(1 - d/3, 0, 1)`;
it is exactly 1 at `d = 0`, exactly 0 for `d ≥ 3`, and equals `1 - d/3`
for `d ≤ 3`. -/
theorem influence_clamp (d : ℝ) (hd : 0 ≤ d) :
    influence d = min 1 (max 0 (1 - d / 3)) ∧
      influence 0 = 1 ∧
      (3 ≤ d → influence d = 0) ∧
      (d ≤ 3 → influence d = 1 - d / 3) := by
  refine ⟨?_, ?_, ?_, ?_⟩
  · unfold influence
    rw [min_eq_right]
    apply max_le (by norm_num)
    linarith
  · unfold influence
    norm_num
  · intro h3
    unfold influence
    rw [max_eq_left]
    linarith
  · intro h3
    unfold influence
    rw [max_eq_right]
    linarith

/-- Witness for C7, at `d = 1`. -/
theorem influence_clamp_spot : (0 : ℝ) ≤ 1 ∧
    (influence 1 = min 1 (max 0 (1 - 1 / 3)) ∧
      influence 0 = 1 ∧
      ((3 : ℝ) ≤ 1 → influence 1 = 0) ∧
      ((1 : ℝ) ≤ 3 → influence 1 = 1 - 1 / 3)) :=
  ⟨by norm_num, influence_clamp 1 (by norm_num)⟩

/-- The distance computed by the shader is a square root, hence nonnegative. -/
theorem dist_nonneg (uMouse : ℝ × ℝ) (x y : ℝ) : 0 ≤ dist uMouse x y := by
  unfold dist length2
  exact Real.sqrt_nonneg _

/-- The influence falloff is nonnegative. -/
theorem influence_nonneg (d : ℝ) : 0 ≤ influence d :=
  le_max_left 0 _

/-- For nonnegative distance the influence falloff is at most 1. -/
theorem influence_le_one (d : ℝ) (hd : 0 ≤ d) : influence d ≤ 1 := by
  unfold influence
  apply max_le (by norm_num)
  linarith

/-- The base elevation is bounded by `1.5 * uAmplitude` in magnitude. -/
theorem abs_elevation_le (uFrequency uAmplitude uSpeed uTime x y : ℝ)
    (hamp : 0 ≤ uAmplitude) :
    |elevation uFrequency uAmplitude uSpeed uTime x y| ≤ 1.5 * uAmplitude := by
  unfold elevation
  have h1 := Real.abs_sin_le_one (x * uFrequency + uTime * uSpeed)
  have h2 := Real.abs_sin_le_one (y * uFrequency * 0.5 + uTime * uSpeed * 0.5)
  obtain ⟨h1l, h1r⟩ := abs_le.mp h1
  obtain ⟨h2l, h2r⟩ := abs_le.mp h2
  rw [abs_le]
  constructor <;>
    nlinarith [mul_le_mul_of_nonneg_right h1r hamp, mul_le_mul_of_nonneg_right h1l hamp,
      mul_le_mul_of_nonneg_right h2r hamp, mul_le_mul_of_nonneg_right h2l hamp]

/-- The ripple distortion is bounded by 2 in magnitude when the hover state
lies in `[0,1]` and the distance is nonnegative. -/
theorem abs_distortion_le (uTime d uHoverState : ℝ) (hd : 0 ≤ d)
    (h0 : 0 ≤ uHoverState) (h1 : uHoverState ≤ 1) :
    |distortion uTime d uHoverState| ≤ 2 := by
  have hi0 := influence_nonneg d
  have hi1 := influence_le_one d hd
  have hih : influence d * uHoverState ≤ 1 := by nlinarith
  have hih0 : 0 ≤ influence d * uHoverState := mul_nonneg hi0 h0
  have key : |Real.sin (d * 3 - uTime * 5) * (influence d * uHoverState)| ≤ 1 := by
    rw [abs_mul, abs_of_nonneg hih0]
    nlinarith [Real.abs_sin_le_one (d * 3 - uTime * 5),
      abs_nonneg (Real.sin (d * 3 - uTime * 5))]
  have heq : distortion uTime d uHoverState =
      Real.sin (d * 3 - uTime * 5) * (influence d * uHoverState) * 2 := by
    unfold distortion
    ring
  obtain ⟨kl, kr⟩ := abs_le.mp key
  rw [heq, abs_le]
  constructor <;> linarith

/-- The total displaced z is bounded by `uAmplitude * 1.5 + 2` in magnitude. -/
theorem abs_displacedZ_le (uFrequency uAmplitude uSpeed uTime : ℝ)
    (uMouse : ℝ × ℝ) (uHoverState x y : ℝ) (hamp : 0 ≤ uAmplitude)
    (h0 : 0 ≤ uHoverState) (h1 : uHoverState ≤ 1) :
    |displacedZ uFrequency uAmplitude uSpeed uTime uMouse uHoverState x y| ≤
      uAmplitude * 1.5 + 2 := by
  have he := abs_elevation_le uFrequency uAmplitude uSpeed uTime x y hamp
  have hdis := abs_distortion_le uTime (dist uMouse x y) uHoverState
    (dist_nonneg uMouse x y) h0 h1
  have heq : displacedZ uFrequency uAmplitude uSpeed uTime uMouse uHoverState x y =
      elevation uFrequency uAmplitude uSpeed uTime x y +
        distortion uTime (dist uMouse x y) uHoverState := by
    unfold displacedZ
    ring
  rw [heq]
  calc |elevation uFrequency uAmplitude uSpeed uTime x y +
        distortion uTime (dist uMouse x y) uHoverState| ≤
      |elevation uFrequency uAmplitude uSpeed uTime x y| +
        |distortion uTime (dist uMouse x y) uHoverState| := abs_add _ _
    _ ≤ uAmplitude * 1.5 + 2 := by linarith

/-- C2: with nonnegative amplitude, the base-wave elevation alone satisfies
`|e| ≤ 1.5 * amplitude`; and for hover state in `[0,1]` the total vertical
displacement satisfies `|z'| ≤ amplitude * 1.5 + 2`. -/
theorem displacement_bounds (uFrequency uAmplitude uSpeed uTime : ℝ)
    (uMouse : ℝ × ℝ) (uHoverState x y : ℝ) (hamp : 0 ≤ uAmplitude)
    (h0 : 0 ≤ uHoverState) (h1 : uHoverState ≤ 1) :
    |elevation uFrequency uAmplitude uSpeed uTime x y| ≤ 1.5 * uAmplitude ∧
      |displacedZ uFrequency uAmplitude uSpeed uTime uMouse uHoverState x y| ≤
        uAmplitude * 1.5 + 2 :=
  ⟨abs_elevation_le uFrequency uAmplitude uSpeed uTime x y hamp,
    abs_displacedZ_le uFrequency uAmplitude uSpeed uTime uMouse uHoverState x y
      hamp h0 h1⟩

/-- Witness for C2, at the default uniforms and hover state 1. -/
theorem displacement_bounds_spot :
    (0 : ℝ) ≤ 1.2 ∧ (0 : ℝ) ≤ 1 ∧ (1 : ℝ) ≤ 1 ∧
      (|elevation 0.5 1.2 0.8 0 0 0| ≤ 1.5 * 1.2 ∧
        |displacedZ 0.5 1.2 0.8 0 (0, 0) 1 0 0| ≤ 1.2 * 1.5 + 2) :=
  ⟨by norm_num, by norm_num, le_refl 1,
    displacement_bounds 0.5 1.2 0.8 0 (0, 0) 1 0 0 (by norm_num) (by norm_num)
      (le_refl 1)⟩

/-- C5: the shader computes `gl_PointSize = 3.0 * (15.0 / -viewPosition.z)`
with no epsilon clamp on the depth: at `viewZ = 0` the divisor is exactly 0
(a genuine division by zero in GLSL; under Lean's total division the result
collapses to 0 rather than the clamped, large positive size the claim
describes), while at `viewZ = -15` the size is the expected 3. -/
theorem pointSize_no_guard :
    pointSizeDivisor 0 = 0 ∧ pointSize 0 = 0 ∧ pointSize (-15) = 3 := by
  refine ⟨by unfold pointSizeDivisor; ring, ?_, ?_⟩
  · unfold pointSize pointSizeDivisor
    norm_num
  · unfold pointSize pointSizeDivisor
    norm_num

/-- The offset distance of the fragment coordinate `(1, 0.5)` from the
center `(0.5, 0.5)` is exactly 0.5. -/
theorem distanceToCenter_boundary : distanceToCenter (1, 0.5) = 0.5 := by
  unfold distanceToCenter length2
  show Real.sqrt (((1 : ℝ) - 0.5) ^ 2 + ((0.5 : ℝ) - 0.5) ^ 2) = 0.5
  rw [show ((1 : ℝ) - 0.5) ^ 2 + ((0.5 : ℝ) - 0.5) ^ 2 = (0.5 : ℝ) ^ 2 by norm_num]
  exact Real.sqrt_sq (by norm_num)

/-- The offset distance of the fragment coordinate `(0.99, 0.5)` from the
center is exactly 0.49. -/
theorem distanceToCenter_inside : distanceToCenter (0.99, 0.5) = 0.49 := by
  unfold distanceToCenter length2
  show Real.sqrt (((0.99 : ℝ) - 0.5) ^ 2 + ((0.5 : ℝ) - 0.5) ^ 2) = 0.49
  rw [show ((0.99 : ℝ) - 0.5) ^ 2 + ((0.5 : ℝ) - 0.5) ^ 2 = (0.49 : ℝ) ^ 2 by norm_num]
  exact Real.sqrt_sq (by norm_num)

/-- C4 counterexample: a fragment at offset distance exactly 0.5 from the
point's center is NOT discarded — the shader's test `distanceToCenter > 0.5`
is strict, so at distance 0.5 the fragment is emitted. -/
theorem frag_boundary_not_discarded :
    distanceToCenter (1, 0.5) = 0.5 ∧
      fragColor (1, 1, 1) 0 (1, 0.5) = some (1, 1, 1, 0.8) := by
  refine ⟨distanceToCenter_boundary, ?_⟩
  unfold fragColor
  rw [if_neg (by rw [distanceToCenter_boundary]; norm_num)]
  show some (1, 1, 1, alpha 0) = some (1, 1, 1, 0.8)
  unfold alpha
  norm_num

/-- C4 amended: a fragment is discarded exactly when its offset distance
from the point's center strictly exceeds 0.5; at distance exactly 0.5 it is
not discarded, and at distance 0.49 it is not discarded. -/
theorem frag_discard_strict (uColor : ℝ × ℝ × ℝ) (vElevation : ℝ) (p : ℝ × ℝ) :
    (fragColor uColor vElevation p = none ↔ 0.5 < distanceToCenter p) ∧
      fragColor uColor vElevation (1, 0.5) ≠ none ∧
      fragColor uColor vElevation (0.99, 0.5) ≠ none := by
  refine ⟨?_, ?_, ?_⟩
  · unfold fragColor
    split_ifs with h
    · simpa using h
    · simpa using h
  · unfold fragColor
    rw [if_neg (by rw [distanceToCenter_boundary]; norm_num)]
    simp
  · unfold fragColor
    rw [if_neg (by rw [distanceToCenter_inside]; norm_num)]
    simp

/-- C10: with the default uniforms (`uFrequency = 0.5`, `uAmplitude = 1.2`,
`uSpeed = 0.8`) and a vertex with world base z = 0, the fragment alpha
`0.8 + z' * 0.1` always lies in `[0.42, 1.18]` (hence is strictly positive)
for every time, pointer position, and hover state in `[0,1]`; and it can
exceed 1, as at `t = 0`, vertex `(π, 0)`, mouse `((π + π/6)/15, 0)`,
hover state 1. -/
theorem alpha_bounds (uTime x y mx my uHoverState : ℝ)
    (h0 : 0 ≤ uHoverState) (h1 : uHoverState ≤ 1) :
    (0.42 ≤ alpha (displacedZ 0.5 1.2 0.8 uTime (mx, my) uHoverState x y) ∧
      alpha (displacedZ 0.5 1.2 0.8 uTime (mx, my) uHoverState x y) ≤ 1.18 ∧
      0 < alpha (displacedZ 0.5 1.2 0.8 uTime (mx, my) uHoverState x y)) ∧
      1 < alpha (displacedZ 0.5 1.2 0.8 0 ((π + π / 6) / 15, 0) 1 π 0) := by
  constructor
  · have hz := abs_displacedZ_le 0.5 1.2 0.8 uTime (mx, my) uHoverState x y
      (by norm_num) h0 h1
    obtain ⟨hzl, hzr⟩ := abs_le.mp hz
    unfold alpha
    refine ⟨by nlinarith, by nlinarith, by nlinarith⟩
  · have hπ : π < 3.15 := pi_lt_d2
    have hπ0 : (0 : ℝ) ≤ π := pi_pos.le
    have hdist : dist ((π + π / 6) / 15, 0) π 0 = π / 6 := by
      unfold dist interactionVec length2
      show Real.sqrt (((π + π / 6) / 15 * 15 - π) ^ 2 + ((0 : ℝ) * 10 - 0) ^ 2) =
        π / 6
      rw [show ((π + π / 6) / 15 * 15 - π) ^ 2 + ((0 : ℝ) * 10 - 0) ^ 2 =
        (π / 6) ^ 2 by ring]
      exact Real.sqrt_sq (by positivity)
    have helev : elevation 0.5 1.2 0.8 0 π 0 = 1.2 := by
      unfold elevation
      rw [show π * 0.5 + (0 : ℝ) * 0.8 = π / 2 by ring,
        show (0 : ℝ) * 0.5 * 0.5 + (0 : ℝ) * 0.8 * 0.5 = 0 by ring,
        Real.sin_pi_div_two, Real.sin_zero]
      norm_num
    have hinf : influence (π / 6) = 1 - π / 18 := by
      unfold influence
      rw [max_eq_right (by linarith : (0 : ℝ) ≤ 1 - π / 6 / 3)]
      ring
    have hdistort : distortion 0 (π / 6) 1 = (1 - π / 18) * 2 := by
      unfold distortion
      rw [show π / 6 * 3 - (0 : ℝ) * 5 = π / 2 by ring, Real.sin_pi_div_two, hinf]
      ring
    have hz : displacedZ 0.5 1.2 0.8 0 ((π + π / 6) / 15, 0) 1 π 0 =
        0 + (1.2 + (1 - π / 18) * 2) := by
      unfold displacedZ
      rw [hdist, helev, hdistort]
    rw [hz]
    unfold alpha
    nlinarith

/-- Witness for C10, at time 0, vertex `(0,0)`, mouse `(0,0)`, hover 0. -/
theorem alpha_bounds_spot :
    (0 : ℝ) ≤ 0 ∧ (0 : ℝ) ≤ 1 ∧
      ((0.42 ≤ alpha (displacedZ 0.5 1.2 0.8 0 (0, 0) 0 0 0) ∧
        alpha (displacedZ 0.5 1.2 0.8 0 (0, 0) 0 0 0) ≤ 1.18 ∧
        0 < alpha (displacedZ 0.5 1.2 0.8 0 (0, 0) 0 0 0)) ∧
        1 < alpha (displacedZ 0.5 1.2 0.8 0 ((π + π / 6) / 15, 0) 1 π 0)) :=
  ⟨le_refl 0, by norm_num, alpha_bounds 0 0 0 0 0 0 (le_refl 0) (by norm_num)⟩

/-- `THREE.MathUtils.lerp(x, y, t) = (1 - t) * x + t * y`. -/
def lerp (x y t : ℚ) : ℚ :=
  (1 - t) * x + t * y

/-- `const targetHover = hovered ? 1.0 : 0.0;`. -/
def targetHover (hovered : Bool) : ℚ :=
  if hovered then 1 else 0

/-- One `useFrame` update of the `uHoverState` uniform:
`lerp(uHoverState, targetHover, 0.1)`. -/
def hoverStep (hovered : Bool) (h : ℚ) : ℚ :=
  lerp h (targetHover hovered) 0.1

/-- The hover state after `n` frame ticks with `hovered` held constant,
starting from `h0`. -/
def hoverIter (hovered : Bool) (h0 : ℚ) : ℕ → ℚ
  | 0 => h0
  | n + 1 => hoverStep hovered (hoverIter hovered h0 n)

/-- One smoothing step keeps the hover state in `[0,1]`. -/
theorem hoverStep_mem (hovered : Bool) (h : ℚ) (hl : 0 ≤ h) (hu : h ≤ 1) :
    0 ≤ hoverStep hovered h ∧ hoverStep hovered h ≤ 1 := by
  unfold hoverStep lerp targetHover
  cases hovered <;> simp <;> constructor <;> nlinarith

/-- Every iterate of the smoothing step stays in `[0,1]`. -/
theorem hoverIter_mem (hovered : Bool) (h0 : ℚ) (hl : 0 ≤ h0) (hu : h0 ≤ 1)
    (n : ℕ) : 0 ≤ hoverIter hovered h0 n ∧ hoverIter hovered h0 n ≤ 1 := by
  induction n with
  | zero => exact ⟨hl, hu⟩
  | succ k ih => exact hoverStep_mem hovered (hoverIter hovered h0 k) ih.1 ih.2

/-- C3: starting from any hover state in `[0,1]` (in particular the initial
value 0), every per-frame update `lerp(h, hovered ? 1 : 0, 0.1)` stays in
`[0,1]`; across successive ticks the state is non-decreasing while
`hovered = true` and non-increasing while `hovered = false`. -/
theorem hoverState_invariant (hovered : Bool) (h0 : ℚ) (hl : 0 ≤ h0)
    (hu : h0 ≤ 1) (n : ℕ) :
    (0 ≤ hoverIter hovered h0 n ∧ hoverIter hovered h0 n ≤ 1) ∧
      (hovered = true → hoverIter hovered h0 n ≤ hoverIter hovered h0 (n + 1)) ∧
      (hovered = false → hoverIter hovered h0 (n + 1) ≤ hoverIter hovered h0 n) := by
  obtain ⟨ml, mu⟩ := hoverIter_mem hovered h0 hl hu n
  refine ⟨⟨ml, mu⟩, ?_, ?_⟩
  · rintro rfl
    show hoverIter true h0 n ≤ hoverStep true (hoverIter true h0 n)
    unfold hoverStep lerp targetHover
    simp
    nlinarith
  · rintro rfl
    show hoverStep false (hoverIter false h0 n) ≤ hoverIter false h0 n
    unfold hoverStep lerp targetHover
    simp
    nlinarith

/-- Witness for C3, at `hovered = true`, `h0 = 0`, `n = 3`. -/
theorem hoverState_invariant_spot :
    (0 : ℚ) ≤ 0 ∧ (0 : ℚ) ≤ 1 ∧
      ((0 ≤ hoverIter true 0 3 ∧ hoverIter true 0 3 ≤ 1) ∧
        (true = true → hoverIter true 0 3 ≤ hoverIter true 0 4) ∧
        (true = false → hoverIter true 0 4 ≤ hoverIter true 0 3)) :=
  ⟨le_refl 0, by norm_num, hoverState_invariant true 0 (le_refl 0) (by norm_num) 3⟩

/-- With `hovered = false` the smoothing is exact exponential decay:
`hoverIter false h0 n = (9/10)^n * h0`. -/
theorem hoverIter_false_pow (h0 : ℚ) (n : ℕ) :
    hoverIter false h0 n = (9 / 10) ^ n * h0 := by
  induction n with
  | zero => simp [hoverIter]
  | succ k ih =>
    show hoverStep false (hoverIter false h0 k) = (9 / 10) ^ (k + 1) * h0
    rw [ih]
    unfold hoverStep lerp targetHover
    simp
    ring

/-- C8: starting from hover state 1 with `hovered = false`, ten smoothing
ticks at `α = 0.1` give exactly `(9/10)^10`, which is within `1e-3` of
`0.349`. -/
theorem hover_decay_ten_ticks :
    hoverIter false 1 10 = (9 / 10) ^ 10 ∧
      |hoverIter false 1 10 - 0.349| ≤ 1e-3 := by
  rw [hoverIter_false_pow]
  constructor
  · ring
  · rw [abs_le]
    constructor <;> norm_num

/-- The mutable state of a `WaveParticles` field: the React `hovered` flag
and the `uMouse`, `uHoverState`, `uTime` uniforms. -/
structure FieldState where
  hovered : Bool
  uMouse : ℚ × ℚ
  uHoverState : ℚ
  uTime : ℚ

/-- `onPointerOver={() => setHovered(true)}`. -/
def onPointerOver (s : FieldState) : FieldState :=
  { s with hovered := true }

/-- `onPointerOut={() => setHovered(false)}`: only the hover flag changes;
the `uMouse` uniform is untouched. -/
def onPointerOut (s : FieldState) : FieldState :=
  { s with hovered := false }

/-- `onPointerMove` also just calls `setHovered(true)`. -/
def onPointerMove (s : FieldState) : FieldState :=
  { s with hovered := true }

/-- One `useFrame` callback: update `uTime`, smooth `uHoverState`, and copy
the pointer into `uMouse` only when `hovered` is true. -/
def useFrameTick (s : FieldState) (time : ℚ) (pointer : ℚ × ℚ) : FieldState :=
  { hovered := s.hovered
    uMouse := if s.hovered then pointer else s.uMouse
    uHoverState := hoverStep s.hovered s.uHoverState
    uTime := time }

/-- Run a sequence of frame ticks, each supplying a clock time and a pointer
sample. -/
def runTicks (s : FieldState) : List (ℚ × (ℚ × ℚ)) → FieldState
  | [] => s
  | input :: rest => runTicks (useFrameTick s input.1 input.2) rest

/-- Frame ticks never flip the hover flag, and while it is false they never
rewrite the mouse uniform. -/
theorem runTicks_not_hovered (s : FieldState) (inputs : List (ℚ × (ℚ × ℚ)))
    (hs : s.hovered = false) :
    (runTicks s inputs).hovered = false ∧ (runTicks s inputs).uMouse = s.uMouse := by
  induction inputs generalizing s with
  | nil => exact ⟨hs, rfl⟩
  | cons input rest ih =>
    have hstep : (useFrameTick s input.1 input.2).hovered = false := by
      simp [useFrameTick, hs]
    obtain ⟨h1, h2⟩ := ih (useFrameTick s input.1 input.2) hstep
    refine ⟨h1, ?_⟩
    rw [show runTicks s (input :: rest) =
      runTicks (useFrameTick s input.1 input.2) rest from rfl, h2]
    simp [useFrameTick, hs]

/-- C9: a pointer-leave event sets the hover flag to false and leaves the
mouse uniform unchanged; on every subsequent frame tick (for any sequence of
clock times and pointer samples, while no further pointer event occurs) the
hover flag stays false and the mouse uniform keeps its last hovered value. -/
theorem pointerOut_retains_mouse (s : FieldState)
    (inputs : List (ℚ × (ℚ × ℚ))) :
    (onPointerOut s).hovered = false ∧
      (onPointerOut s).uMouse = s.uMouse ∧
      (runTicks (onPointerOut s) inputs).hovered = false ∧
      (runTicks (onPointerOut s) inputs).uMouse = s.uMouse := by
  obtain ⟨h1, h2⟩ := runTicks_not_hovered (onPointerOut s) inputs rfl
  exact ⟨rfl, rfl, h1, h2⟩

end WaveParticles
